import Mathlib

/-!
# Verification of the hex_star grid / pathfinding core (src/game.py)

Shallow embedding of the program's core:

* the hex grid's jagged row layout and bounds-checked lookup
  (`HexGrid.__post_init__`, `HexGrid.__getitem__`),
* the neighbor wiring computed once at construction (lines 52-62),
* the A* path finder (`Player.find_path`, lines 155-193) including the
  `PriorityQueue` ordering on `(f_score, insertion count)` tuples and the
  exact neighbor iteration order of `HexNeighborhood.__iter__`,
* the player operations (`destination` setter, `move`),
* the pixel geometry (`Hexagon.__post_init__`) and the pointer resolver
  (the `MOUSEMOTION` handler, lines 240-256), modelled over the reals.

Cells are identified by their grid coordinates `(row, col)`; the Python
`Hexagon` objects hash and compare by their `position` field alone, so this
identification is faithful.  Machine floats of the source are modelled as
exact real numbers.
-/

namespace HexStar

/-- A cell's grid coordinate `(row, col)`: row index into `hexagons`,
column index into that row. -/
abbrev Coord := Int × Int

/-- The grid's construction parameters (`HexGrid.height`, `HexGrid.width`).
The jagged list of rows is a pure function of these, so the static shape is
carried by the dimensions alone. -/
structure Dims where
  height : Int
  width : Int
deriving DecidableEq, Repr

/-- In-bounds test of `HexGrid.__getitem__` (src/game.py lines 65-68):
`0 ≤ row < len(hexagons)` and `0 ≤ col < len(hexagons[row])`, where
`len(hexagons) = max(height,0)` and row `r` holds
`max(width - r % 2, 0)` cells (`__post_init__`, lines 48-51). -/
def inBounds (d : Dims) (p : Coord) : Bool :=
  decide (0 ≤ p.1) && decide (p.1 < d.height) &&
  decide (0 ≤ p.2) && decide (p.2 < d.width - p.1 % 2)

theorem inBounds_iff (d : Dims) (p : Coord) :
    inBounds d p = true ↔
      0 ≤ p.1 ∧ p.1 < d.height ∧ 0 ≤ p.2 ∧ p.2 < d.width - p.1 % 2 := by
  simp [inBounds, and_assoc]

/-- Coordinate-level `HexGrid.__getitem__`: the cell at `p`, or `none`
out of bounds. -/
def cellAt (d : Dims) (p : Coord) : Option Coord :=
  if inBounds d p then some p else none

/-- `hex.neighbors.up_left = self[irow-1, icol + irow%2 - 1]` (line 57). -/
def upLeft (d : Dims) (p : Coord) : Option Coord :=
  cellAt d (p.1 - 1, p.2 + p.1 % 2 - 1)

/-- `hex.neighbors.up_right = self[irow-1, icol + irow%2]` (line 58). -/
def upRight (d : Dims) (p : Coord) : Option Coord :=
  cellAt d (p.1 - 1, p.2 + p.1 % 2)

/-- `hex.neighbors.down_left = self[irow+1, icol + irow%2 - 1]` (line 59). -/
def downLeft (d : Dims) (p : Coord) : Option Coord :=
  cellAt d (p.1 + 1, p.2 + p.1 % 2 - 1)

/-- `hex.neighbors.down_right = self[irow+1, icol + irow%2]` (line 60). -/
def downRight (d : Dims) (p : Coord) : Option Coord :=
  cellAt d (p.1 + 1, p.2 + p.1 % 2)

/-- `hex.neighbors.left = self[irow, icol-1]` (line 61). -/
def leftNb (d : Dims) (p : Coord) : Option Coord :=
  cellAt d (p.1, p.2 - 1)

/-- `hex.neighbors.right = self[irow, icol+1]` (line 62). -/
def rightNb (d : Dims) (p : Coord) : Option Coord :=
  cellAt d (p.1, p.2 + 1)

/-- The present neighbors of a cell in the iteration order of
`HexNeighborhood.__iter__` (line 96):
`up_left, up_right, right, down_right, down_left, left`, skipping `None`. -/
def neighborList (d : Dims) (p : Coord) : List Coord :=
  [upLeft d p, upRight d p, rightNb d p,
   downRight d p, downLeft d p, leftNb d p].filterMap id

/-- Mutable game state: the grid shape plus the set of cells whose
`blocked` flag is `True`.  Only `blocked` (and UI highlighting) ever
mutates after construction. -/
structure GState where
  dims : Dims
  blockedCells : List Coord
deriving DecidableEq, Repr

/-- A cell's `blocked` flag. -/
def isBlocked (s : GState) (p : Coord) : Bool :=
  decide (p ∈ s.blockedCells)

/-- The right-click handler (line 220):
`selected_hex.blocked = not selected_hex.blocked`. -/
def toggleBlocked (s : GState) (p : Coord) : GState :=
  if isBlocked s p then
    { s with blockedCells := s.blockedCells.erase p }
  else
    { s with blockedCells := p :: s.blockedCells }

/-- `[n for n in current_node.neighbors if not n.blocked]` (line 183). -/
def unblockedNeighbors (s : GState) (p : Coord) : List Coord :=
  (neighborList s.dims p).filter (fun n => !isBlocked s n)

/-- The heuristic `h` of `Player.find_path` (lines 157-158):
`fabs(a.position[0]-b.position[0]) + fabs(a.position[1]-b.position[1])`.
`position` holds the pair (col,row), so this is the Manhattan distance
in offset coordinates. -/
def hManhattan (a b : Coord) : Nat :=
  (a.1 - b.1).natAbs + (a.2 - b.2).natAbs

/-- A frontier entry `(f_score, insertion count, node)` as put on the
`PriorityQueue` (lines 166, 192). -/
abbrev Entry := Nat × Nat × Coord

/-- `PriorityQueue` pops the smallest tuple; insertion counts are unique,
so comparison is lexicographic on `(f, count)` and never reaches the node. -/
def entryLt (a b : Entry) : Bool :=
  decide (a.1 < b.1) || (decide (a.1 = b.1) && decide (a.2.1 < b.2.1))

/-- Select the minimal entry of a nonempty frontier. -/
def minEntry (x : Entry) (xs : List Entry) : Entry :=
  xs.foldl (fun m e => if entryLt e m then e else m) x

/-- `q.get()`: remove and return the minimal entry; `none` on an empty
queue (the loop guard `while not q.empty()`). -/
def popMin (q : List Entry) : Option (Entry × List Entry) :=
  match q with
  | [] => none
  | x :: xs =>
    let m := minEntry x xs
    some (m, (x :: xs).erase m)

/-- First-match association lookup, the read of a Python dict key.
Updates cons a fresh pair, so the most recent write wins, matching
dict assignment. -/
def alook {α : Type} (l : List (Coord × α)) (k : Coord) : Option α :=
  match l with
  | [] => none
  | (k', v) :: rest => if k = k' then some v else alook rest k

/-- The mutable state of one `find_path` run: frontier `q` with its
insertion counter, the `open_nodes` set, the finite parts of the
`g_score` / `f_score` dicts (absent key = the `math.inf` initial value),
and `came_from`. -/
structure AState where
  q : List Entry
  cnt : Nat
  openN : List Coord
  g : List (Coord × Nat)
  f : List (Coord × Nat)
  cf : List (Coord × Option Coord)
deriving Repr

/-- One relaxation of neighbor `n` from `current_node` (lines 183-192). -/
def relaxStep (dest cur : Coord) (st : AState) (n : Coord) : AState :=
  let score := (alook st.g cur).getD 0 + 1
  if (alook st.g n).all (fun gn => score < gn) then
    let fn := score + hManhattan n dest
    let st := { st with g := (n, score) :: st.g, f := (n, fn) :: st.f,
                        cf := (n, some cur) :: st.cf }
    if n ∈ st.openN then st
    else { st with openN := n :: st.openN, cnt := st.cnt + 1,
                   q := (fn, st.cnt + 1, n) :: st.q }
  else st

/-- The `for neighbor in ...` loop body of one expansion. -/
def relax (s : GState) (dest cur : Coord) (st : AState) : AState :=
  (unblockedNeighbors s cur).foldl (relaxStep dest cur) st

/-- Path reconstruction (lines 179-181): follow `came_from` back from the
goal, prepending each node.  The chain strictly decreases `g_score`, so it
is finite; the fuel is an upper bound on its length and is never exhausted
on states produced by the search. -/
def reconstruct (cf : List (Coord × Option Coord)) :
    Nat → Coord → List Coord → List Coord
  | 0, cur, acc => cur :: acc
  | fuel + 1, cur, acc =>
    match alook cf cur with
    | some (some prev) => reconstruct cf fuel prev (cur :: acc)
    | _ => cur :: acc

/-- The `while not q.empty()` loop of `Player.find_path` (lines 175-192).
Fuel bounds the number of iterations; the caller passes enough for the
loop to run to completion (the Python loop always terminates because a
node re-enters the frontier only after a strict `g_score` decrease). -/
def astarLoop (s : GState) (dest : Coord) : Nat → AState → List Coord
  | 0, _ => []
  | fuel + 1, st =>
    match popMin st.q with
    | none => []
    | some (e, rest) =>
      let cur := e.2.2
      let st1 : AState := { st with q := rest, openN := st.openN.erase cur }
      if cur = dest then
        reconstruct st1.cf (st1.cf.length + 1) cur []
      else
        astarLoop s dest fuel (relax s dest cur st1)

/-- Iteration budget: 'find_path' pushes a node only after a strict
`g_score` decrease, so `(cells+1)^2 + 1` iterations always suffice. -/
def fuelFor (s : GState) : Nat :=
  (s.dims.height.toNat * s.dims.width.toNat + 1) ^ 2 + 1

/-- The search of `Player.find_path` for a set destination: initial
frontier `[(0, 0, position)]`, `g_score[position] = 0`,
`f_score[position] = h(position, destination)`, `came_from[position] = None`,
then the main loop.  Returns the reconstructed path, or `[]` when the
frontier is exhausted without reaching the goal (`self.path = []`, line 162). -/
def runAstar (s : GState) (start dest : Coord) : List Coord :=
  astarLoop s dest (fuelFor s)
    { q := [(0, 0, start)], cnt := 0, openN := [start],
      g := [(start, 0)], f := [(start, hManhattan start dest)],
      cf := [(start, none)] }

/-! ## Hexagon objects and geometry

Module-level constants of src/game.py (lines 7-33), with machine floats
modelled as exact real numbers. -/

/-- `POINTER_OFFSET = 0.09` (line 7). -/
noncomputable def pointerBoundaryOffset : ℝ := 9 / 100

/-- `GRID_OFFSET = 5` (line 11), the pixel margin. -/
noncomputable def gridMargin : ℝ := 5

/-- `HEX_HEIGHT = 64` (line 18). -/
noncomputable def hexHeight : ℝ := 64

/-- `GRID_HEIGHT = 13` (line 19). -/
def gridHeightC : Int := 13

/-- `GRID_WIDTH = 13` (line 20). -/
def gridWidthC : Int := 13

/-- `quart_height = HEX_HEIGHT / 4` (line 22). -/
noncomputable def quartHeight : ℝ := hexHeight / 4

/-- `three_quart_height = 3 * quart_height` (line 23). -/
noncomputable def threeQuartHeight : ℝ := 3 * quartHeight

/-- `hex_width = HEX_HEIGHT * math.sqrt(3) / 2` (line 24). -/
noncomputable def hexWidth : ℝ := hexHeight * Real.sqrt 3 / 2

/-- `half_width = hex_width / 2` (line 25). -/
noncomputable def halfWidth : ℝ := hexWidth / 2

/-- The template hexagon `hex_vertices` (lines 26-33). -/
noncomputable def hexVertices : List (ℝ × ℝ) :=
  [(halfWidth, 0),
   (hexWidth, quartHeight),
   (hexWidth, threeQuartHeight),
   (halfWidth, hexHeight),
   (0, threeQuartHeight),
   (0, quartHeight)]

/-- `HEX_COLORS` (lines 13-17). -/
def hexColors : List (Nat × Nat × Nat) :=
  [(180, 120, 120), (120, 180, 120), (120, 120, 180)]

/-- The `Hexagon` dataclass (lines 98-114).  `position` is the pair the
constructor receives — `(j, i)`, that is `(col, row)` (line 49).  The
`neighbors` field is omitted here: neighbor links are the pure functions
of the grid shape defined above, which is faithful because they are
assigned once in `HexGrid.__post_init__` and never mutated. -/
structure Hexagon where
  color : Nat × Nat × Nat
  position : Int × Int
  vertices : List (ℝ × ℝ)
  center : ℝ × ℝ
  highlighted : Bool
  blocked : Bool

/-- `Hexagon(HEX_COLORS[(j + 2*(i%2)) % 3], (j,i))` (line 49) followed by
`Hexagon.__post_init__` (lines 108-114): absolute vertices are the template
shifted by the margin and by
`(position[0]*hex_width + position[1]%2*half_width, position[1]*three_quart_height)`;
the center is `(vertices[0].x, (vertices[1].y + vertices[2].y)/2)`. -/
noncomputable def mkHexagon (j i : Int) : Hexagon :=
  let verts := hexVertices.map (fun v =>
    (v.1 + gridMargin + (j : ℝ) * hexWidth + ((i % 2 : Int) : ℝ) * halfWidth,
     v.2 + gridMargin + (i : ℝ) * threeQuartHeight))
  { color := hexColors.getD ((j + 2 * (i % 2)) % 3).toNat (0, 0, 0)
    position := (j, i)
    vertices := verts
    center := ((verts.getD 0 (0, 0)).1,
               ((verts.getD 1 (0, 0)).2 + (verts.getD 2 (0, 0)).2) / 2)
    highlighted := false
    blocked := false }

/-- The `HexGrid` dataclass (lines 40-68).  `selected_hex` is transient UI
state consumed only by the event loop and is not modelled. -/
structure HexGrid where
  height : Int
  width : Int
  hexagons : List (List Hexagon)

/-- `HexGrid.__post_init__` (lines 47-51): row `i` (for `i in range(height)`)
holds `Hexagon(..., (j,i))` for `j in range(width - i%2)`.  `range` of a
nonpositive integer is empty, and the method raises no error. -/
noncomputable def mkHexGrid (h w : Int) : HexGrid :=
  { height := h
    width := w
    hexagons := (List.range h.toNat).map (fun (i : Nat) =>
      (List.range (w - ((i : Int) % 2)).toNat).map (fun (j : Nat) =>
        mkHexagon (j : Int) (i : Int))) }

/-- `HexGrid.__getitem__` (lines 65-68): bounds-checked double index,
`None` out of range. -/
def HexGrid.get (g : HexGrid) (key : Int × Int) : Option Hexagon :=
  if key.1 < 0 ∨ (g.hexagons.length : Int) ≤ key.1 then none
  else
    let row := (g.hexagons[key.1.toNat]?).getD []
    if key.2 < 0 ∨ (row.length : Int) ≤ key.2 then none
    else row[key.2.toNat]?

/-- The center pixel of the cell at grid coordinate `(row, col)`; the
`Hexagon` constructor receives the pair as `(col, row)`. -/
noncomputable def cellCenter (p : Coord) : ℝ × ℝ := (mkHexagon p.2 p.1).center

/-! ## The pointer resolver (the `MOUSEMOTION` handler, lines 240-256) -/

/-- Pixel-to-cell resolution: subtract the margin, derive the row from
`y / three_quart_height`, the column from the parity-shifted
`x / hex_width`, and apply the diagonal boundary correction with constant
`POINTER_OFFSET`.  Returns the `(row, col)` pair looked up in the grid.
Python `x % 1` on floats is `Int.fract`, `math.floor` is `Int.floor`,
and `(col_fract < 0)` is the bool-to-int coercion. -/
noncomputable def pointerResolve (pos : ℝ × ℝ) : Int × Int :=
  let mouseX := pos.1 - gridMargin
  let mouseY := pos.2 - gridMargin
  let relativeRow := mouseY / threeQuartHeight
  let rowFract := Int.fract relativeRow
  let mouseRow := ⌊relativeRow⌋
  let oddRow := mouseRow % 2
  let relativeCol := (mouseX - (oddRow : ℝ) * halfWidth) / hexWidth
  let colFract := 1 / 2 - Int.fract relativeCol
  let mouseCol := ⌊relativeCol⌋
  if 2 * rowFract < |colFract| + pointerBoundaryOffset then
    let oddRow2 := 1 - oddRow
    (mouseRow - 1, mouseCol + (if colFract < 0 then 1 else 0) - oddRow2)
  else
    (mouseRow, mouseCol)

/-! ## The player (`Player` dataclass, lines 122-193) -/

/-- The `Player` dataclass fields the core uses: current cell, pixel
center, cached path, optional destination (`_destination`, default
`None`).  `color` is rendering-only and omitted. -/
structure Player where
  position : Coord
  center : ℝ × ℝ
  path : List Coord
  destination : Option Coord

/-- `Player.__post_init__` (lines 141-142): `center = position.center`. -/
noncomputable def mkPlayer (pos : Coord) : Player :=
  { position := pos, center := cellCenter pos, path := [], destination := none }

/-- `Player.find_path` (lines 155-193): when a destination is set, clear
the path, run the A* search from the current position, store the result
(which is `[]` on frontier exhaustion) and report whether the goal was
reached; when no destination is set, leave the path untouched and report
`False`. -/
def Player.findPath (s : GState) (p : Player) : Player × Bool :=
  match p.destination with
  | none => (p, false)
  | some d =>
    let path := runAstar s p.position d
    ({ p with path := path }, !path.isEmpty)

/-- `Player.move` (lines 149-153): on a present, unblocked target reassign
`position`, recompute `center`, re-run the path finder; otherwise do
nothing.  `if position_hex` is Python truthiness — `None` is falsy. -/
noncomputable def Player.move (s : GState) (p : Player) (tgt : Option Coord) : Player :=
  match tgt with
  | none => p
  | some t =>
    if isBlocked s t then p
    else (Player.findPath s { p with position := t, center := cellCenter t }).1

/-- The `destination` property setter (lines 135-139).  The second
component of the result is the value the Python setter returns: there is
no `return` statement, so it is always `None` (modelled `none`); a `True`
or `False` return would be `some true` / `some false`.  Passing `None` as
the new destination evaluates `None.blocked` and raises `AttributeError`,
modelled as `Except.error`. -/
def Player.setDestination (s : GState) (p : Player) (newDest : Option Coord) :
    Except Unit (Player × Option Bool) :=
  match newDest with
  | none => Except.error ()
  | some d =>
    if isBlocked s d then Except.ok (p, none)
    else Except.ok ((Player.findPath s { p with destination := some d }).1, none)

/-! ## Spec-side notions used by the claims -/

/-- The cells of the grid with dimensions `d`, in construction order. -/
def gridCells (d : Dims) : List Coord :=
  (List.range d.height.toNat).flatMap (fun (i : Nat) =>
    (List.range (d.width - ((i : Int) % 2)).toNat).map (fun (j : Nat) =>
      ((i : Int), (j : Int))))

/-- Offset `(row, col)` to axial coordinates for this layout (odd rows
shifted right by half a cell). -/
def axialOf (p : Coord) : Int × Int := (p.2 - (p.1 - p.1 % 2) / 2, p.1)

/-- The exact hex-grid distance between two cells in offset coordinates:
the graph distance of the obstacle-free adjacency, via the axial/cube
distance formula. -/
def offsetHexDist (a b : Coord) : Nat :=
  let qa := axialOf a
  let qb := axialOf b
  let dq := qa.1 - qb.1
  let dr := qa.2 - qb.2
  (dq.natAbs + dr.natAbs + (dq + dr).natAbs) / 2

/-- Reachability from `start` through unblocked cells: each step moves to
a present neighbor whose `blocked` flag is false (the start itself may be
blocked, exactly as in the search, which always expands the start). -/
inductive ReachableU (s : GState) (start : Coord) : Coord → Prop
  | refl : ReachableU s start start
  | step {m n : Coord} : ReachableU s start m → n ∈ unblockedNeighbors s m →
      ReachableU s start n

/-! ## Basic lemmas -/

theorem cellAt_eq_some_iff (d : Dims) (p q : Coord) :
    cellAt d p = some q ↔ inBounds d p = true ∧ p = q := by
  unfold cellAt
  split <;> simp_all

theorem toggleBlocked_dims (s : GState) (c : Coord) :
    (toggleBlocked s c).dims = s.dims := by
  unfold toggleBlocked
  split <;> rfl

theorem isBlocked_toggleBlocked_self (s : GState) (c : Coord)
    (h : isBlocked s c = false) : isBlocked (toggleBlocked s c) c = true := by
  simp only [toggleBlocked, h, Bool.false_eq_true, if_false]
  simp [isBlocked]

/-! ## C3: neighbor symmetry and static topology -/

/-- C3: for every grid and every pair of cells `a`, `b` of it, each
neighbor slot is symmetric to its structural opposite — `b` is `a`'s
up-right neighbor iff `a` is `b`'s down-left neighbor, `b` is `a`'s
up-left neighbor iff `a` is `b`'s down-right neighbor, and `b` is `a`'s
right neighbor iff `a` is `b`'s left neighbor; moreover the only mutation
the program performs on grid state, toggling a `blocked` flag, leaves the
grid shape and therefore every neighbor link unchanged. -/
theorem neighbor_symmetry (d : Dims) (a b : Coord)
    (ha : inBounds d a = true) (hb : inBounds d b = true) :
    ((upRight d a = some b ↔ downLeft d b = some a) ∧
     (upLeft d a = some b ↔ downRight d b = some a) ∧
     (rightNb d a = some b ↔ leftNb d b = some a)) ∧
    (∀ (s : GState) (c p : Coord), s.dims = d →
      neighborList (toggleBlocked s c).dims p = neighborList d p) := by
  constructor
  · obtain ⟨a1, a2⟩ := a
    obtain ⟨b1, b2⟩ := b
    rw [inBounds_iff] at ha hb
    simp only [upRight, downLeft, upLeft, downRight, rightNb, leftNb,
      cellAt_eq_some_iff, inBounds_iff, Prod.mk.injEq]
    omega
  · intro s c p hs
    rw [toggleBlocked_dims, hs]

theorem neighbor_symmetry_witness :
    inBounds ⟨2, 2⟩ (1, 0) = true ∧ inBounds ⟨2, 2⟩ (0, 1) = true ∧
    (upRight ⟨2, 2⟩ (1, 0) = some (0, 1) ↔ downLeft ⟨2, 2⟩ (0, 1) = some (1, 0)) :=
  ⟨by decide, by decide,
    (neighbor_symmetry ⟨2, 2⟩ (1, 0) (0, 1) (by decide) (by decide)).1.1⟩

/-! ## C9: assigning `None` as destination raises -/

/-- C9: the destination setter dereferences `new_dest.blocked`
unconditionally, so assigning the absent cell (`None`) raises an
`AttributeError` (modelled `Except.error`) rather than silently doing
nothing, while assigning any present cell returns without error. -/
theorem setDestination_none_raises (s : GState) (p : Player) :
    Player.setDestination s p none = Except.error () ∧
    ∀ d : Coord, ∃ out, Player.setDestination s p (some d) = Except.ok out := by
  refine ⟨rfl, fun d => ?_⟩
  by_cases hb : isBlocked s d = true
  · exact ⟨(p, none), by simp [Player.setDestination, hb]⟩
  · exact ⟨((Player.findPath s { p with destination := some d }).1, none),
      by simp [Player.setDestination, hb]⟩

/-! ## C10: `move` to an absent or blocked target is a no-op -/

/-- C10: `Player.move` with an absent (`None`) target, or with a blocked
target, returns the player completely unchanged — position, center,
destination and cached path included. -/
theorem move_noop (s : GState) (p : Player) :
    Player.move s p none = p ∧
    ∀ t : Coord, isBlocked s t = true → Player.move s p (some t) = p := by
  refine ⟨rfl, fun t ht => ?_⟩
  unfold Player.move
  simp [ht]

theorem move_noop_witness :
    Player.move ⟨⟨3, 3⟩, [(0, 0)]⟩ ⟨(0, 1), ((0 : ℝ), (0 : ℝ)), [], none⟩ none =
      ⟨(0, 1), ((0 : ℝ), (0 : ℝ)), [], none⟩ ∧
    Player.move ⟨⟨3, 3⟩, [(0, 0)]⟩ ⟨(0, 1), ((0 : ℝ), (0 : ℝ)), [], none⟩
        (some (0, 0)) = ⟨(0, 1), ((0 : ℝ), (0 : ℝ)), [], none⟩ :=
  ⟨(move_noop ⟨⟨3, 3⟩, [(0, 0)]⟩ ⟨(0, 1), ((0 : ℝ), (0 : ℝ)), [], none⟩).1,
   (move_noop ⟨⟨3, 3⟩, [(0, 0)]⟩ ⟨(0, 1), ((0 : ℝ), (0 : ℝ)), [], none⟩).2
     (0, 0) (by decide)⟩

/-! ## C5: the destination setter's behavior and return value -/

/-- C5 (amended): on a blocked target the setter is a no-op leaving
destination and path unchanged; on an unblocked target it sets the
destination, invokes the path finder and stores the resulting path.  In
both cases the Python setter has no `return` statement, so its value is
`None` (`none`) — it does not return `true` or `false`. -/
theorem setDestination_behavior (s : GState) (p : Player) (d : Coord) :
    (isBlocked s d = true →
      Player.setDestination s p (some d) = Except.ok (p, none)) ∧
    (isBlocked s d = false →
      Player.setDestination s p (some d) =
        Except.ok ({ p with destination := some d, path := runAstar s p.position d },
          none)) := by
  constructor <;> intro hb <;>
    simp [Player.setDestination, Player.findPath, hb]

theorem setDestination_behavior_witness :
    isBlocked ⟨⟨1, 1⟩, []⟩ (0, 0) = false ∧
    Player.setDestination ⟨⟨1, 1⟩, []⟩ ⟨(0, 0), ((0 : ℝ), (0 : ℝ)), [], none⟩
        (some (0, 0)) =
      Except.ok (⟨(0, 0), ((0 : ℝ), (0 : ℝ)), [(0, 0)], some (0, 0)⟩, none) := by
  refine ⟨by decide, ?_⟩
  have h := (setDestination_behavior ⟨⟨1, 1⟩, []⟩
    ⟨(0, 0), ((0 : ℝ), (0 : ℝ)), [], none⟩ (0, 0)).2 (by decide)
  rw [h]
  rfl

/-- C5 counterexample: the claim says the setter returns `true` on an
unblocked target (and `false` on a blocked one); the code's setter has no
`return` statement, so the Python call returns `None` — modelled `none`,
distinct from `some true` and `some false` — at this concrete input. -/
theorem setDestination_returns_none_cex :
    Player.setDestination ⟨⟨1, 1⟩, []⟩ ⟨(0, 0), ((0 : ℝ), (0 : ℝ)), [], none⟩
        (some (0, 0)) =
      Except.ok (⟨(0, 0), ((0 : ℝ), (0 : ℝ)), [(0, 0)], some (0, 0)⟩,
                 (none : Option Bool)) ∧
    (none : Option Bool) ≠ some true ∧ (none : Option Bool) ≠ some false := by
  exact ⟨rfl, by decide, by decide⟩

/-! ## C6: grid construction -/

theorem mkHexGrid_length (h w : Int) :
    (mkHexGrid h w).hexagons.length = h.toNat := by
  show ((List.range h.toNat).map _).length = h.toNat
  rw [List.length_map, List.length_range]

theorem mkHexGrid_row (h w : Int) (i : Nat) (hi : i < h.toNat) :
    (mkHexGrid h w).hexagons[i]? =
      some ((List.range (w - ((i : Int) % 2)).toNat).map (fun (j : Nat) =>
        mkHexagon (j : Int) (i : Int))) := by
  show ((List.range h.toNat).map _)[i]? = _
  rw [List.getElem?_map, List.getElem?_range hi]
  rfl

/-- C6 counterexample: the claim says nonpositive dimensions make
construction fail with an error, but `HexGrid.__post_init__` validates
nothing: `range` of a nonpositive integer is just empty, so construction
returns normally — with no rows at nonpositive height, and with three
empty rows at `height = 3, width = 0`. -/
theorem construction_no_failure_cex :
    (mkHexGrid 0 5).hexagons = [] ∧
    (mkHexGrid (-1) 3).hexagons = [] ∧
    (mkHexGrid 3 0).hexagons = [[], [], []] := by
  refine ⟨rfl, rfl, ?_⟩
  rfl

/-- C6 (amended): construction never fails.  Nonpositive `height` yields a
grid with no rows; positive `height` yields `height` rows, where row `i`
has `width - (i mod 2)` cells when `width` is positive and no cells when
`width` is nonpositive. -/
theorem construction_shape (h w : Int) :
    (h ≤ 0 → (mkHexGrid h w).hexagons = []) ∧
    (0 < h → (mkHexGrid h w).hexagons.length = h.toNat ∧
      ∀ i : Nat, i < h.toNat →
        ∃ row, (mkHexGrid h w).hexagons[i]? = some row ∧
          (0 < w → (row.length : Int) = w - ((i : Int) % 2)) ∧
          (w ≤ 0 → row = [])) := by
  constructor
  · intro hle
    have : h.toNat = 0 := by omega
    simp [mkHexGrid, this]
  · intro _
    refine ⟨mkHexGrid_length h w, fun i hi => ?_⟩
    refine ⟨_, mkHexGrid_row h w i hi, ?_, ?_⟩
    · intro hw
      have hmod : (0 : Int) ≤ (i : Int) % 2 ∧ (i : Int) % 2 < 2 := by omega
      simp only [List.length_map, List.length_range]
      omega
    · intro hw
      have : (w - ((i : Int) % 2)).toNat = 0 := by omega
      simp [this]

theorem construction_shape_witness :
    (mkHexGrid (-2) 4).hexagons = [] ∧
    (mkHexGrid 2 4).hexagons.length = 2 ∧
    (∃ row, (mkHexGrid 2 4).hexagons[1]? = some row ∧ (row.length : Int) = 3) := by
  refine ⟨(construction_shape (-2) 4).1 (by decide), ?_, ?_⟩
  · have := ((construction_shape 2 4).2 (by decide)).1
    simpa using this
  · obtain ⟨row, hrow, hlen, -⟩ := ((construction_shape 2 4).2 (by decide)).2 1 (by decide)
    exact ⟨row, hrow, by simpa using hlen (by decide)⟩

/-! ## C2: grid lookup -/

theorem get_mkHexGrid_inBounds (h w r c : Int)
    (h1 : 0 ≤ r) (h2 : r < h) (h3 : 0 ≤ c) (h4 : c < w - r % 2) :
    (mkHexGrid h w).get (r, c) = some (mkHexagon c r) := by
  have hrn : r.toNat < h.toNat := by omega
  have hrow := mkHexGrid_row h w r.toNat hrn
  have hcast : ((r.toNat : Int)) = r := by omega
  rw [hcast] at hrow
  have hcn : c.toNat < (w - r % 2).toNat := by omega
  unfold HexGrid.get
  rw [if_neg]
  · simp only [hrow, Option.getD_some]
    rw [if_neg]
    · rw [List.getElem?_map, List.getElem?_range hcn]
      show some (mkHexagon (c.toNat : Int) r) = some (mkHexagon c r)
      have hc2 : ((c.toNat : Int)) = c := by omega
      rw [hc2]
    · simp only [List.length_map, List.length_range]
      omega
  · rw [mkHexGrid_length]
    omega

theorem get_mkHexGrid_oob (h w r c : Int)
    (hoob : ¬(0 ≤ r ∧ r < h ∧ 0 ≤ c ∧ c < w - r % 2)) :
    (mkHexGrid h w).get (r, c) = none := by
  unfold HexGrid.get
  rw [mkHexGrid_length]
  by_cases hr : r < 0 ∨ (h.toNat : Int) ≤ r
  · rw [if_pos hr]
  · rw [if_neg hr]
    push_neg at hr
    have hrn : r.toNat < h.toNat := by omega
    have hrow := mkHexGrid_row h w r.toNat hrn
    have hcast : ((r.toNat : Int)) = r := by omega
    rw [hcast] at hrow
    simp only [hrow, Option.getD_some, List.length_map, List.length_range]
    rw [if_pos]
    omega

/-- C2 counterexample: the claim says the cell returned by
`HexGrid[(row, col)]` stores the coordinate `(row, col)`, but `Hexagon`
objects are constructed as `Hexagon(..., (j, i))` with `j` the column and
`i` the row: at `(row, col) = (0, 1)` on a 2×2 grid the stored position is
`(1, 0)`, not `(0, 1)`. -/
theorem grid_lookup_position_cex :
    ∃ hex, (mkHexGrid 2 2).get (0, 1) = some hex ∧
      hex.position = (1, 0) ∧ hex.position ≠ ((0 : Int), (1 : Int)) := by
  refine ⟨mkHexagon 1 0, ?_, rfl, by decide⟩
  exact get_mkHexGrid_inBounds 2 2 0 1 (by decide) (by decide) (by decide) (by decide)

/-- C2 (amended): for every in-bounds `(row, col)` the lookup returns the
cell whose stored coordinate is `(col, row)` — the components swapped with
respect to the lookup key; every out-of-bounds lookup returns `None` and
never an error. -/
theorem grid_lookup_position (h w r c : Int) :
    (0 ≤ r → r < h → 0 ≤ c → c < w - r % 2 →
      ∃ hex, (mkHexGrid h w).get (r, c) = some hex ∧ hex.position = (c, r)) ∧
    (¬(0 ≤ r ∧ r < h ∧ 0 ≤ c ∧ c < w - r % 2) →
      (mkHexGrid h w).get (r, c) = none) := by
  constructor
  · intro h1 h2 h3 h4
    exact ⟨mkHexagon c r, get_mkHexGrid_inBounds h w r c h1 h2 h3 h4, rfl⟩
  · exact get_mkHexGrid_oob h w r c

theorem grid_lookup_position_witness :
    (∃ hex, (mkHexGrid 3 3).get (2, 1) = some hex ∧ hex.position = (1, 2)) ∧
    (mkHexGrid 3 3).get (1, 2) = none :=
  ⟨(grid_lookup_position 3 3 2 1).1 (by decide) (by decide) (by decide) (by decide),
   (grid_lookup_position 3 3 1 2).2 (by decide)⟩

/-! ## Invariants of the A* loop

The search only ever relaxes unblocked neighbors, so every node that
enters the frontier or the `came_from` map — other than the start, which
is seeded unconditionally — is unblocked, and every frontier node is
reachable from the start through unblocked cells. -/

theorem unblocked_of_mem_unblockedNeighbors (s : GState) (m x : Coord)
    (hx : x ∈ unblockedNeighbors s m) : isBlocked s x = false := by
  have := (List.mem_filter.mp hx).2
  simpa using this

theorem alook_cons {α : Type} (k : Coord) (v : α) (l : List (Coord × α)) (x : Coord) :
    alook ((k, v) :: l) x = if x = k then some v else alook l x := rfl

theorem minEntry_mem (x : Entry) (xs : List Entry) : minEntry x xs ∈ x :: xs := by
  induction xs generalizing x with
  | nil => simp [minEntry]
  | cons y ys ih =>
    show List.foldl _ _ (y :: ys) ∈ _
    rw [List.foldl_cons]
    by_cases hlt : entryLt y x = true
    · rw [if_pos hlt]
      show minEntry y ys ∈ x :: y :: ys
      have h := ih y
      rw [List.mem_cons] at h
      rcases h with h | h
      · rw [h]
        simp
      · exact List.mem_cons_of_mem _ (List.mem_cons_of_mem _ h)
    · rw [if_neg hlt]
      show minEntry x ys ∈ x :: y :: ys
      have h := ih x
      rw [List.mem_cons] at h
      rcases h with h | h
      · rw [h]
        simp
      · exact List.mem_cons_of_mem _ (List.mem_cons_of_mem _ h)

theorem popMin_sub (q : List Entry) (e : Entry) (rest : List Entry)
    (hp : popMin q = some (e, rest)) : e ∈ q ∧ ∀ x ∈ rest, x ∈ q := by
  match q with
  | [] => simp [popMin] at hp
  | x :: xs =>
    simp only [popMin, Option.some.injEq, Prod.mk.injEq] at hp
    obtain ⟨h1, h2⟩ := hp
    subst h1
    subst h2
    exact ⟨minEntry_mem x xs, fun y hy => List.mem_of_mem_erase hy⟩

theorem foldl_inv {α β : Type} {P : β → Prop} (f : β → α → β) :
    ∀ (l : List α) (b : β), (∀ b a, a ∈ l → P b → P (f b a)) → P b → P (l.foldl f b)
  | [], _, _, hb => hb
  | x :: xs, b, hstep, hb => by
    rw [List.foldl_cons]
    exact foldl_inv f xs (f b x)
      (fun b a ha => hstep b a (List.mem_cons_of_mem _ ha))
      (hstep b x (List.mem_cons_self _ _) hb)

/-- The loop invariant of `find_path`: every frontier node is the start or
unblocked and is reachable through unblocked cells, every `came_from` key
other than the start is unblocked, and every `came_from` value is the
start or unblocked. -/
structure SearchInv (s : GState) (start : Coord) (st : AState) : Prop where
  qNodes : ∀ e ∈ st.q, e.2.2 = start ∨ isBlocked s e.2.2 = false
  qReach : ∀ e ∈ st.q, ReachableU s start e.2.2
  cfVal : ∀ k m, alook st.cf k = some (some m) → m = start ∨ isBlocked s m = false

theorem searchInv_init (s : GState) (start dest : Coord) :
    SearchInv s start
      { q := [(0, 0, start)], cnt := 0, openN := [start],
        g := [(start, 0)], f := [(start, hManhattan start dest)],
        cf := [(start, none)] } := by
  refine ⟨?_, ?_, ?_⟩
  · intro e he
    rw [List.mem_singleton] at he
    subst he
    exact Or.inl rfl
  · intro e he
    rw [List.mem_singleton] at he
    subst he
    exact ReachableU.refl
  · intro k m hk
    rw [alook_cons] at hk
    split at hk
    · simp at hk
    · simp [alook] at hk

theorem searchInv_relaxStep (s : GState) (start dest cur : Coord) (st : AState)
    (n : Coord) (hn : n ∈ unblockedNeighbors s cur)
    (hcur : cur = start ∨ isBlocked s cur = false)
    (hreach : ReachableU s start cur)
    (hinv : SearchInv s start st) : SearchInv s start (relaxStep dest cur st n) := by
  have hnb : isBlocked s n = false := unblocked_of_mem_unblockedNeighbors s cur n hn
  have hcf : ∀ k m,
      alook ((n, some cur) :: st.cf) k = some (some m) →
        m = start ∨ isBlocked s m = false := by
    intro k m hk
    rw [alook_cons] at hk
    split at hk
    · rw [Option.some.injEq, Option.some.injEq] at hk
      subst hk
      exact hcur
    · exact hinv.cfVal k m hk
  unfold relaxStep
  dsimp only
  split
  · split
    · exact ⟨hinv.qNodes, hinv.qReach, hcf⟩
    · refine ⟨?_, ?_, hcf⟩
      · intro e he
        rw [List.mem_cons] at he
        rcases he with he | he
        · subst he
          exact Or.inr hnb
        · exact hinv.qNodes e he
      · intro e he
        rw [List.mem_cons] at he
        rcases he with he | he
        · subst he
          exact ReachableU.step hreach hn
        · exact hinv.qReach e he
  · exact hinv

theorem searchInv_relax (s : GState) (start dest cur : Coord) (st : AState)
    (hcur : cur = start ∨ isBlocked s cur = false)
    (hreach : ReachableU s start cur)
    (hinv : SearchInv s start st) : SearchInv s start (relax s dest cur st) :=
  foldl_inv (relaxStep dest cur) (unblockedNeighbors s cur) st
    (fun st n hn hin => searchInv_relaxStep s start dest cur st n hn hcur hreach hin)
    hinv

theorem searchInv_pop (s : GState) (start : Coord) (st : AState) (e : Entry)
    (rest : List Entry) (hp : popMin st.q = some (e, rest))
    (hinv : SearchInv s start st) :
    SearchInv s start { st with q := rest, openN := st.openN.erase e.2.2 } := by
  obtain ⟨-, hsub⟩ := popMin_sub st.q e rest hp
  exact ⟨fun x hx => hinv.qNodes x (hsub x hx),
         fun x hx => hinv.qReach x (hsub x hx),
         hinv.cfVal⟩

theorem astarLoop_eq_nil_of_not_reachable (s : GState) (start dest : Coord)
    (hnr : ¬ ReachableU s start dest) :
    ∀ (fuel : Nat) (st : AState), SearchInv s start st →
      astarLoop s dest fuel st = [] := by
  intro fuel
  induction fuel with
  | zero => intro st _; rfl
  | succ k ih =>
    intro st hinv
    rw [astarLoop]
    cases hp : popMin st.q with
    | none => rfl
    | some pr =>
      obtain ⟨e, rest⟩ := pr
      have he : e ∈ st.q := (popMin_sub st.q e rest hp).1
      dsimp only
      rw [if_neg]
      · exact ih _ (searchInv_relax s start dest e.2.2 _
          (hinv.qNodes e he) (hinv.qReach e he) (searchInv_pop s start st e rest hp hinv))
      · intro hd
        exact hnr (hd ▸ hinv.qReach e he)

theorem runAstar_eq_nil_of_not_reachable (s : GState) (start dest : Coord)
    (hnr : ¬ ReachableU s start dest) : runAstar s start dest = [] :=
  astarLoop_eq_nil_of_not_reachable s start dest hnr (fuelFor s) _
    (searchInv_init s start dest)

theorem reconstruct_mem (s : GState) (start : Coord)
    (cf : List (Coord × Option Coord))
    (hv : ∀ k m, alook cf k = some (some m) → m = start ∨ isBlocked s m = false) :
    ∀ (fuel : Nat) (cur : Coord) (acc : List Coord),
      (cur = start ∨ isBlocked s cur = false) →
      ∀ x ∈ reconstruct cf fuel cur acc,
        x ∈ acc ∨ x = start ∨ isBlocked s x = false := by
  intro fuel
  induction fuel with
  | zero =>
    intro cur acc hcur x hx
    rw [reconstruct, List.mem_cons] at hx
    rcases hx with hx | hx
    · exact Or.inr (hx ▸ hcur)
    · exact Or.inl hx
  | succ k ih =>
    intro cur acc hcur x hx
    rw [reconstruct] at hx
    cases hcf : alook cf cur with
    | none =>
      rw [hcf] at hx
      rw [List.mem_cons] at hx
      rcases hx with hx | hx
      · exact Or.inr (hx ▸ hcur)
      · exact Or.inl hx
    | some mv =>
      cases mv with
      | none =>
        rw [hcf] at hx
        rw [List.mem_cons] at hx
        rcases hx with hx | hx
        · exact Or.inr (hx ▸ hcur)
        · exact Or.inl hx
      | some prev =>
        rw [hcf] at hx
        have := ih prev (cur :: acc) (hv cur prev hcf) x hx
        rcases this with hmem | hrest
        · rw [List.mem_cons] at hmem
          rcases hmem with hmem | hmem
          · exact Or.inr (hmem ▸ hcur)
          · exact Or.inl hmem
        · exact Or.inr hrest

theorem astarLoop_mem (s : GState) (start dest : Coord) :
    ∀ (fuel : Nat) (st : AState), SearchInv s start st →
      ∀ x ∈ astarLoop s dest fuel st, x = start ∨ isBlocked s x = false := by
  intro fuel
  induction fuel with
  | zero => intro st _ x hx; simp [astarLoop] at hx
  | succ k ih =>
    intro st hinv x hx
    rw [astarLoop] at hx
    cases hp : popMin st.q with
    | none => rw [hp] at hx; simp at hx
    | some pr =>
      obtain ⟨e, rest⟩ := pr
      have he : e ∈ st.q := (popMin_sub st.q e rest hp).1
      rw [hp] at hx
      dsimp only at hx
      by_cases hd : e.2.2 = dest
      · rw [if_pos hd] at hx
        have := reconstruct_mem s start st.cf hinv.cfVal
          (st.cf.length + 1) e.2.2 [] (hinv.qNodes e he) x hx
        rcases this with hmem | hrest
        · simp at hmem
        · exact hrest
      · rw [if_neg hd] at hx
        exact ih _ (searchInv_relax s start dest e.2.2 _
          (hinv.qNodes e he) (hinv.qReach e he)
          (searchInv_pop s start st e rest hp hinv)) x hx

theorem runAstar_mem (s : GState) (start dest : Coord) :
    ∀ x ∈ runAstar s start dest, x = start ∨ isBlocked s x = false :=
  astarLoop_mem s start dest (fuelFor s) _ (searchInv_init s start dest)

theorem runAstar_self (s : GState) (start : Coord) :
    runAstar s start start = [start] := by
  obtain ⟨k, hk⟩ : ∃ k, fuelFor s = k + 1 := ⟨_, rfl⟩
  unfold runAstar
  rw [hk, astarLoop]
  have hpop : popMin [(0, 0, start)] = some ((0, 0, start), []) := by
    simp [popMin, minEntry, List.erase_cons_head]
  rw [hpop]
  dsimp only
  rw [if_pos rfl]
  simp [reconstruct, alook]

/-! ## C7: trivial and unreachable destinations -/

/-- C7: with a destination set, the path finder yields the single-element
path `[position]` when the destination equals the player's position, and
the empty path — without raising — whenever the destination cannot be
reached from the position through unblocked cells. -/
theorem find_path_trivial_and_unreachable (s : GState) (p : Player) (d : Coord)
    (hdest : p.destination = some d) :
    (d = p.position → (Player.findPath s p).1.path = [p.position]) ∧
    (¬ ReachableU s p.position d → (Player.findPath s p).1.path = []) := by
  constructor
  · intro hd
    simp only [Player.findPath, hdest]
    subst hd
    exact runAstar_self s p.position
  · intro hnr
    simp only [Player.findPath, hdest]
    exact runAstar_eq_nil_of_not_reachable s p.position d hnr

theorem find_path_trivial_and_unreachable_witness :
    (Player.findPath ⟨⟨2, 2⟩, []⟩
        ⟨(0, 0), ((0 : ℝ), (0 : ℝ)), [], some (0, 0)⟩).1.path = [(0, 0)] ∧
    (Player.findPath ⟨⟨1, 2⟩, [(0, 1)]⟩
        ⟨(0, 0), ((0 : ℝ), (0 : ℝ)), [], some (0, 1)⟩).1.path = [] := by
  constructor
  · exact (find_path_trivial_and_unreachable ⟨⟨2, 2⟩, []⟩
      ⟨(0, 0), ((0 : ℝ), (0 : ℝ)), [], some (0, 0)⟩ (0, 0) rfl).1 rfl
  · refine (find_path_trivial_and_unreachable ⟨⟨1, 2⟩, [(0, 1)]⟩
      ⟨(0, 0), ((0 : ℝ), (0 : ℝ)), [], some (0, 1)⟩ (0, 1) rfl).2 ?_
    intro h
    have hne : ∀ x, ReachableU ⟨⟨1, 2⟩, [(0, 1)]⟩ (0, 0) x → x ≠ (0, 1) := by
      intro x hx
      induction hx with
      | refl => decide
      | step hm hn ih =>
        intro hx1
        subst hx1
        have := unblocked_of_mem_unblockedNeighbors _ _ _ hn
        simp [isBlocked] at this
    exact hne (0, 1) h rfl

/-! ## C4: blocking a cell and re-running the path finder -/

/-- C4 (amended): block any cell `C` of the current cached path other than
the player's own position and re-run the path finder for the same position
and destination: the new cached path does not contain `C` (in particular
it may be empty).  The exception for the player's position is necessary:
the search expands the start unconditionally, so a path found after
blocking the start still begins with it (see the counterexample). -/
theorem blocked_cell_excluded (s : GState) (p : Player) (d C : Coord)
    (hdest : p.destination = some d) (_hpath : C ∈ p.path)
    (hunblocked : isBlocked s C = false) (hne : C ≠ p.position) :
    C ∉ (Player.findPath (toggleBlocked s C) p).1.path := by
  intro hmem
  simp only [Player.findPath, hdest] at hmem
  rcases runAstar_mem (toggleBlocked s C) p.position d C hmem with h | h
  · exact hne h
  · rw [isBlocked_toggleBlocked_self s C hunblocked] at h
    exact absurd h (by simp)

theorem blocked_cell_excluded_witness :
    ((0 : Int), (1 : Int)) ∉
      (Player.findPath (toggleBlocked ⟨⟨1, 3⟩, []⟩ (0, 1))
        ⟨(0, 0), ((0 : ℝ), (0 : ℝ)), [(0, 0), (0, 1), (0, 2)], some (0, 2)⟩).1.path :=
  blocked_cell_excluded ⟨⟨1, 3⟩, []⟩
    ⟨(0, 0), ((0 : ℝ), (0 : ℝ)), [(0, 0), (0, 1), (0, 2)], some (0, 2)⟩
    (0, 2) (0, 1) rfl (by decide) (by decide) (by decide)

/-- C4 counterexample: the claim as stated covers every cell of the cached
path, including the player's own position.  On a 1×3 grid with the player
at `(0,1)`, cached path `[(0,1), (0,2)]` to destination `(0,2)`, blocking
the on-path cell `(0,1)` (the position) and re-running the path finder
yields the path `[(0,1), (0,2)]` again: a nonempty path that still
contains the newly blocked cell, because the search expands the start
regardless of its `blocked` flag. -/
theorem blocked_cell_excluded_cex :
    isBlocked (toggleBlocked ⟨⟨1, 3⟩, []⟩ (0, 1)) (0, 1) = true ∧
    (Player.findPath (toggleBlocked ⟨⟨1, 3⟩, []⟩ (0, 1))
        ⟨(0, 1), ((0 : ℝ), (0 : ℝ)), [(0, 1), (0, 2)], some (0, 2)⟩).1.path =
      [(0, 1), (0, 2)] ∧
    ((0 : Int), (1 : Int)) ∈
      (Player.findPath (toggleBlocked ⟨⟨1, 3⟩, []⟩ (0, 1))
        ⟨(0, 1), ((0 : ℝ), (0 : ℝ)), [(0, 1), (0, 2)], some (0, 2)⟩).1.path := by
  refine ⟨by decide, by decide, by decide⟩

/-! ## C1: path length on an obstacle-free grid -/

/-- C1 counterexample: on the obstacle-free 3×3 grid, from `(0,0)` to
`(2,1)` the path finder returns `[(0,0), (1,0), (2,1)]` — 2 steps via two
diagonal moves — while the Manhattan distance in offset coordinates is
`|0-2| + |0-1| = 3`.  The claimed equality of path steps and Manhattan
distance fails because diagonal steps change row and column at once. -/
theorem path_steps_ne_manhattan_cex :
    (Player.findPath ⟨⟨3, 3⟩, []⟩
        ⟨(0, 0), ((0 : ℝ), (0 : ℝ)), [], some (2, 1)⟩).1.path =
      [(0, 0), (1, 0), (2, 1)] ∧
    (Player.findPath ⟨⟨3, 3⟩, []⟩
        ⟨(0, 0), ((0 : ℝ), (0 : ℝ)), [], some (2, 1)⟩).1.path.length - 1 ≠
      hManhattan (0, 0) (2, 1) ∧
    hManhattan (0, 0) (2, 1) = 3 := by
  refine ⟨by decide, by decide, by decide⟩

/-- C1 (amended): on an obstacle-free grid the number of steps of the path
returned by `Player.find_path` equals the exact hex-grid distance in
offset coordinates (the axial/cube distance), which is at most — and for
diagonal displacements strictly less than — the Manhattan distance
`|Δrow| + |Δcol|`; verified exhaustively for every ordered pair of cells
of the 3×3 grid of the specification's own example. -/
theorem path_steps_eq_hex_distance :
    ∀ a ∈ gridCells ⟨3, 3⟩, ∀ b ∈ gridCells ⟨3, 3⟩,
      (Player.findPath ⟨⟨3, 3⟩, []⟩
          ⟨a, ((0 : ℝ), (0 : ℝ)), [], some b⟩).1.path.length - 1 =
        offsetHexDist a b ∧ offsetHexDist a b ≤ hManhattan a b := by
  decide

theorem path_steps_eq_hex_distance_witness :
    ((0 : Int), (0 : Int)) ∈ gridCells ⟨3, 3⟩ ∧
    ((2 : Int), (2 : Int)) ∈ gridCells ⟨3, 3⟩ ∧
    ((Player.findPath ⟨⟨3, 3⟩, []⟩
        ⟨(0, 0), ((0 : ℝ), (0 : ℝ)), [], some (2, 2)⟩).1.path.length - 1 =
      offsetHexDist (0, 0) (2, 2) ∧
      offsetHexDist (0, 0) (2, 2) ≤ hManhattan (0, 0) (2, 2)) :=
  ⟨by decide, by decide,
    path_steps_eq_hex_distance (0, 0) (by decide) (2, 2) (by decide)⟩

/-! ## C8: the pointer resolver at cell centers -/

theorem six_getD_zero {α : Type} (a b c d e f x : α) :
    [a, b, c, d, e, f].getD 0 x = a := rfl

theorem six_getD_one {α : Type} (a b c d e f x : α) :
    [a, b, c, d, e, f].getD 1 x = b := rfl

theorem six_getD_two {α : Type} (a b c d e f x : α) :
    [a, b, c, d, e, f].getD 2 x = c := rfl

theorem mkHexagon_center (j i : Int) :
    (mkHexagon j i).center =
      (gridMargin + (j : ℝ) * hexWidth + ((i % 2 : Int) : ℝ) * halfWidth + halfWidth,
       gridMargin + (i : ℝ) * threeQuartHeight + 2 * quartHeight) := by
  unfold mkHexagon hexVertices
  dsimp only [List.map_cons, List.map_nil]
  rw [six_getD_zero, six_getD_one, six_getD_two, Prod.mk.injEq]
  constructor
  · ring
  · simp only [threeQuartHeight]
    ring

theorem floor_intCast_add_thirds (r : Int) : ⌊(r : ℝ) + 2 / 3⌋ = r := by
  rw [add_comm, Int.floor_add_int]
  have h23 : ⌊(2 / 3 : ℝ)⌋ = 0 := by
    rw [Int.floor_eq_zero_iff]
    constructor <;> norm_num
  rw [h23, zero_add]

theorem fract_intCast_add_thirds (r : Int) : Int.fract ((r : ℝ) + 2 / 3) = 2 / 3 := by
  rw [add_comm, Int.fract_add_int]
  exact Int.fract_eq_self.mpr ⟨by norm_num, by norm_num⟩

theorem floor_intCast_add_half (c : Int) : ⌊(c : ℝ) + 1 / 2⌋ = c := by
  rw [add_comm, Int.floor_add_int]
  have h12 : ⌊(1 / 2 : ℝ)⌋ = 0 := by
    rw [Int.floor_eq_zero_iff]
    constructor <;> norm_num
  rw [h12, zero_add]

theorem fract_intCast_add_half (c : Int) : Int.fract ((c : ℝ) + 1 / 2) = 1 / 2 := by
  rw [add_comm, Int.fract_add_int]
  exact Int.fract_eq_self.mpr ⟨by norm_num, by norm_num⟩

theorem resolver_at_center (r c : Int) :
    pointerResolve (mkHexagon c r).center = (r, c) := by
  have hs3 : (0 : ℝ) < Real.sqrt 3 := Real.sqrt_pos.mpr (by norm_num)
  have hW0 : hexWidth ≠ 0 := by
    unfold hexWidth hexHeight
    positivity
  have hQ : quartHeight = 16 := by norm_num [quartHeight, hexHeight]
  have hT : threeQuartHeight = 48 := by norm_num [threeQuartHeight, quartHeight, hexHeight]
  have eRow : ((gridMargin + (r : ℝ) * threeQuartHeight + 2 * quartHeight) -
      gridMargin) / threeQuartHeight = (r : ℝ) + 2 / 3 := by
    rw [hQ, hT]
    field_simp
    ring
  have eCol : ((gridMargin + (c : ℝ) * hexWidth + ((r % 2 : Int) : ℝ) * halfWidth +
      halfWidth) - gridMargin - ((r % 2 : Int) : ℝ) * halfWidth) / hexWidth =
      (c : ℝ) + 1 / 2 := by
    have hhw : halfWidth = hexWidth / 2 := rfl
    rw [hhw]
    field_simp
    ring
  rw [mkHexagon_center]
  unfold pointerResolve
  dsimp only
  rw [eRow, floor_intCast_add_thirds, fract_intCast_add_thirds,
    eCol, floor_intCast_add_half, fract_intCast_add_half]
  rw [if_neg]
  norm_num [pointerBoundaryOffset]

/-- C8: for every cell of the program's 13×13 grid, the pointer resolver
applied to the cell's exact center pixel produces that cell's `(row, col)`
coordinate, and looking the resolved coordinate up in the grid returns
that very cell.  At the center, `row_fract` is exactly `2/3` and
`col_fract` exactly `0`, so the diagonal boundary correction
(`2*row_fract < |col_fract| + 0.09`) never fires. -/
theorem pointer_resolver_at_center (r c : Int)
    (h1 : 0 ≤ r) (h2 : r < gridHeightC) (h3 : 0 ≤ c) (h4 : c < gridWidthC - r % 2) :
    pointerResolve (mkHexagon c r).center = (r, c) ∧
    (mkHexGrid gridHeightC gridWidthC).get
        (pointerResolve (mkHexagon c r).center) = some (mkHexagon c r) := by
  refine ⟨resolver_at_center r c, ?_⟩
  rw [resolver_at_center r c]
  exact get_mkHexGrid_inBounds gridHeightC gridWidthC r c h1 h2 h3 h4

theorem pointer_resolver_at_center_witness :
    pointerResolve (mkHexagon 1 2).center = (2, 1) ∧
    (mkHexGrid gridHeightC gridWidthC).get
        (pointerResolve (mkHexagon 1 2).center) = some (mkHexagon 1 2) :=
  pointer_resolver_at_center 2 1 (by decide) (by decide) (by decide) (by decide)

end HexStar
